import Mathlib

/-!
Verification of the slugbot asynchronous execution and live-status subsystem:
a shallow embedding of the single-consumer task queue
(`internal/exec/task_queue.go`), the queue view renderer
(`internal/exec/task_queue_view.go`), the message lifecycle manager
(`internal/discord/message.go` and its reply-style revision), the pollable
file bridge (`PollableFile`) and the progress-reporting session
(`FilePollMessage`), together with proofs of the specified properties.
-/

set_option autoImplicit false

/-- Go error values as manipulated by the code: the distinguished
`ErrUnknownMessage` sentinel (compared with `==` in the source), plain
errors created by `errors.New`/remote failures, and wrapping errors created
by `fmt.Errorf("<context>: %w", err)`. -/
inductive GoErr
  | errUnknownMessage
  | mk (msg : String)
  | wrap (ctx : String) (inner : GoErr)
deriving DecidableEq, Repr

/-- A task as consumed by the queue (`QTask` interface in `task_queue.go`):
`applyErr` models the value `Apply()` returns, `prompt` the value
`Prompt()` returns, and `typeName` the Go dynamic type name printed by
the `%T` format verb in the queue view. -/
structure QTask where
  applyErr : Option GoErr
  prompt : String
  typeName : String
deriving DecidableEq, Repr

/-- The fields of the Go `TaskQueue` struct (the mutex is modelled by the
atomicity of the transition steps below). -/
structure TaskQueue where
  queue : List QTask
  running : Bool
deriving DecidableEq, Repr

/-- Control state of one consumer goroutine spawned by `Enqueue`:
either at the top of `runLoop` (about to lock and check emptiness) or
currently executing `task.Apply()` outside the lock. -/
inductive TPhase
  | atTop
  | applying (t : QTask)
deriving DecidableEq, Repr

/-- Global state of one `TaskQueue` instance together with the set of live
consumer goroutines and the observable event histories: `enqueued` records
the arguments of `Enqueue` calls in order, `applied` the tasks whose
`Apply()` has been called in call order, `handled` the `HandleError`
calls (task and error) in call order. -/
structure QState where
  tq : TaskQueue
  threads : List TPhase
  enqueued : List QTask
  applied : List QTask
  handled : List (QTask × GoErr)
deriving DecidableEq, Repr

/-- `NewTaskQueue()`: empty queue, consumer flag off, no goroutines. -/
def initState : QState := ⟨⟨[], false⟩, [], [], [], []⟩

/-- Scheduler actions: an `Enqueue(t)` call, the locked
check-and-pop section at the top of consumer `i`'s `runLoop` iteration,
or consumer `i` finishing `Apply()` (and calling `HandleError` on error). -/
inductive Label
  | enqueue (t : QTask)
  | consume (i : Nat)
  | finish (i : Nat)
deriving DecidableEq, Repr

/-- `TaskQueue.Enqueue`, one atomic step (the whole body runs under the
mutex): append the task; if no consumer is running, set the flag and spawn
a consumer goroutine. -/
def stepEnqueue (s : QState) (t : QTask) : QState :=
  let s1 : QState :=
    { s with tq := { s.tq with queue := s.tq.queue ++ [t] },
             enqueued := s.enqueued ++ [t] }
  if s1.tq.running then s1
  else { s1 with tq := { s1.tq with running := true },
                 threads := s1.threads ++ [TPhase.atTop] }

/-- The locked section at the top of `runLoop` for consumer `i`: if the
queue is empty, clear `running` and return (the goroutine terminates);
otherwise pop the front task and, after unlocking, call its `Apply()`
(the task enters the `applying` phase and is recorded in `applied`).
`none` when consumer `i` does not exist or is not at the loop top. -/
def stepConsume (s : QState) (i : Nat) : Option QState :=
  match s.threads[i]? with
  | some (TPhase.atTop) =>
    match s.tq.queue with
    | [] => some { s with tq := { s.tq with running := false },
                          threads := s.threads.eraseIdx i }
    | t :: rest =>
      some { s with tq := { s.tq with queue := rest },
                    threads := s.threads.set i (TPhase.applying t),
                    applied := s.applied ++ [t] }
  | _ => none

/-- Consumer `i` returns from `task.Apply()`: if the result was a non-nil
error the queue calls `task.HandleError(err)`; either way the consumer
loops back to the top. `none` when consumer `i` is not applying a task. -/
def stepFinish (s : QState) (i : Nat) : Option QState :=
  match s.threads[i]? with
  | some (TPhase.applying t) =>
    some { s with threads := s.threads.set i TPhase.atTop,
                  handled := match t.applyErr with
                             | some e => s.handled ++ [(t, e)]
                             | none => s.handled }
  | _ => none

/-- One scheduler step. -/
def step (s : QState) : Label → Option QState
  | Label.enqueue t => some (stepEnqueue s t)
  | Label.consume i => stepConsume s i
  | Label.finish i => stepFinish s i

/-- Run a schedule of steps; `none` if some step is not enabled. -/
def run (s : QState) : List Label → Option QState
  | [] => some s
  | l :: ls =>
    match step s l with
    | none => none
    | some s2 => run s2 ls

/-- The `HandleError` events generated by a list of executed tasks: one
event per task whose `Apply()` returned a non-nil error, carrying that
same error, in execution order. -/
def errPairs (l : List QTask) : List (QTask × GoErr) :=
  l.filterMap (fun t => t.applyErr.map (fun e => (t, e)))

/-- Consistency of the consumer goroutines with the histories: at most one
consumer exists; when none is mid-`Apply`, the `HandleError` history is
exactly the error events of the applied tasks; when one is mid-`Apply`,
its task is the last applied one and its error event (if any) is still
pending. -/
def threadsOk : List TPhase → List QTask → List (QTask × GoErr) → Prop
  | [], a, h => h = errPairs a
  | [TPhase.atTop], a, h => h = errPairs a
  | [TPhase.applying t], a, h => ∃ l, a = l ++ [t] ∧ h = errPairs l
  | _, _, _ => False

/-- Inductive invariant of the task queue: the `running` flag tracks the
existence of the (unique) consumer goroutine, the enqueue history splits
into the applied history followed by the pending queue (strict FIFO), and
the goroutines are consistent with the histories. -/
def QInv (s : QState) : Prop :=
  (s.tq.running = true ↔ s.threads.length = 1) ∧
  s.enqueued = s.applied ++ s.tq.queue ∧
  threadsOk s.threads s.applied s.handled

theorem inv_init : QInv initState := by
  refine ⟨by simp [initState], by simp [initState], ?_⟩
  simp [initState, threadsOk, errPairs]

theorem threadsOk_shape (th : List TPhase) (a : List QTask)
    (h : List (QTask × GoErr)) (hok : threadsOk th a h) :
    th = [] ∨ th = [TPhase.atTop] ∨ ∃ t, th = [TPhase.applying t] := by
  match th with
  | [] => exact Or.inl rfl
  | [TPhase.atTop] => exact Or.inr (Or.inl rfl)
  | [TPhase.applying t] => exact Or.inr (Or.inr ⟨t, rfl⟩)
  | TPhase.atTop :: y :: rest => exact absurd hok (by simp [threadsOk])
  | TPhase.applying t :: y :: rest => exact absurd hok (by simp [threadsOk])

theorem errPairs_append (a b : List QTask) :
    errPairs (a ++ b) = errPairs a ++ errPairs b := by
  simp [errPairs, List.filterMap_append]

theorem inv_stepEnqueue (s : QState) (t : QTask) (hs : QInv s) :
    QInv (stepEnqueue s t) := by
  obtain ⟨hrun, hfifo, hth⟩ := hs
  by_cases hr : s.tq.running = true
  · refine ⟨?_, ?_, ?_⟩ <;> simp only [stepEnqueue, hr, if_true]
    · simp [hr, hrun.mp hr]
    · rw [hfifo, List.append_assoc]
    · exact hth
  · have hr' : s.tq.running = false := by
      cases hb : s.tq.running
      · rfl
      · exact absurd hb hr
    have hlen : s.threads.length ≠ 1 := fun hl => by
      rw [hrun.mpr hl] at hr'
      cases hr'
    have hnil : s.threads = [] := by
      rcases threadsOk_shape _ _ _ hth with h0 | h1 | ⟨u, h1⟩
      · exact h0
      · exact absurd (by simp [h1]) hlen
      · exact absurd (by simp [h1]) hlen
    refine ⟨?_, ?_, ?_⟩ <;> simp only [stepEnqueue, hr', if_false, Bool.false_eq_true]
    · simp [hnil]
    · rw [hfifo, List.append_assoc]
    · rw [hnil] at hth ⊢
      simpa [threadsOk] using hth

theorem inv_stepConsume (s : QState) (i : Nat) (s2 : QState)
    (hs : QInv s) (h : stepConsume s i = some s2) : QInv s2 := by
  obtain ⟨hrun, hfifo, hth⟩ := hs
  unfold stepConsume at h
  rcases threadsOk_shape _ _ _ hth with hnil | hone | ⟨t, happ⟩
  · rw [hnil] at h
    simp at h
  · rw [hone] at h hth
    match i with
    | 0 =>
      cases hq : s.tq.queue with
      | nil =>
        rw [hq] at h hfifo
        simp only [List.getElem?_cons_zero, List.eraseIdx] at h
        cases h
        refine ⟨by simp, by simpa [hq] using hfifo, ?_⟩
        simpa [threadsOk] using hth
      | cons t rest =>
        rw [hq] at h hfifo
        simp only [List.getElem?_cons_zero, List.set] at h
        cases h
        refine ⟨?_, ?_, ?_⟩
        · simpa [hone] using hrun
        · simpa [List.append_assoc] using hfifo
        · exact ⟨s.applied, rfl, by simpa [threadsOk] using hth⟩
    | n + 1 =>
      simp at h
  · rw [happ] at h
    match i with
    | 0 => simp at h
    | n + 1 => simp at h

theorem inv_stepFinish (s : QState) (i : Nat) (s2 : QState)
    (hs : QInv s) (h : stepFinish s i = some s2) : QInv s2 := by
  obtain ⟨hrun, hfifo, hth⟩ := hs
  unfold stepFinish at h
  rcases threadsOk_shape _ _ _ hth with hnil | hone | ⟨t, happ⟩
  · rw [hnil] at h
    simp at h
  · rw [hone] at h
    match i with
    | 0 => simp at h
    | n + 1 => simp at h
  · rw [happ] at h
    rw [happ] at hth
    obtain ⟨l, hl, hh⟩ := hth
    match i with
    | 0 =>
      simp only [List.getElem?_cons_zero, List.set] at h
      cases h
      refine ⟨by simpa [happ] using hrun, hfifo, ?_⟩
      show threadsOk [TPhase.atTop] s.applied _
      simp only [threadsOk]
      rw [hl, errPairs_append, hh]
      cases he : t.applyErr with
      | none => simp [errPairs, he]
      | some e => simp [errPairs, he]
    | n + 1 =>
      simp at h

theorem inv_step (s : QState) (l : Label) (s2 : QState)
    (hs : QInv s) (h : step s l = some s2) : QInv s2 := by
  cases l with
  | enqueue t =>
    simp only [step] at h
    cases h
    exact inv_stepEnqueue s t hs
  | consume i => exact inv_stepConsume s i s2 hs h
  | finish i => exact inv_stepFinish s i s2 hs h

theorem run_inv (ls : List Label) (s s2 : QState)
    (hs : QInv s) (h : run s ls = some s2) : QInv s2 := by
  induction ls generalizing s with
  | nil =>
    simp only [run] at h
    cases h
    exact hs
  | cons l ls ih =>
    simp only [run] at h
    cases hstep : step s l with
    | none => rw [hstep] at h; cases h
    | some s1 =>
      rw [hstep] at h
      exact ih s1 (inv_step s l s1 hs hstep) h

/-- Number of consumer goroutines currently inside a `task.Apply()` call,
i.e. the number of concurrently executing tasks. -/
def countApplying (ths : List TPhase) : Nat :=
  (ths.filter fun p => match p with
    | TPhase.applying _ => true
    | TPhase.atTop => false).length

/-- Claim C1: for every `TaskQueue` instance and every schedule of
`Enqueue` calls and consumer steps, the tasks whose `Apply()` has been
called form, in call order, exactly the prefix of the enqueue history that
precedes the still-pending queue: `Apply()` calls occur in exactly enqueue
order (strict FIFO per instance). -/
theorem taskQueue_fifo (ls : List Label) (s : QState)
    (h : run initState ls = some s) :
    s.enqueued = s.applied ++ s.tq.queue :=
  (run_inv ls initState s inv_init h).2.1

/-- Claim C2: in every reachable state of a `TaskQueue` instance at most
one consumer goroutine exists (the `running` flag guards spawning under
the mutex), so at most one task is ever mid-`Apply()`: no two `Apply()`
calls on the same instance run concurrently. -/
theorem taskQueue_single_consumer (ls : List Label) (s : QState)
    (h : run initState ls = some s) :
    s.threads.length ≤ 1 ∧ countApplying s.threads ≤ 1 := by
  have hinv := run_inv ls initState s inv_init h
  rcases threadsOk_shape _ _ _ hinv.2.2 with hnil | hone | ⟨t, happ⟩
  · simp [hnil, countApplying]
  · simp [hone, countApplying]
  · simp [happ, countApplying]

/-- Claim C3: in any reachable state where the consumer has drained the
queue and terminated, every enqueued task has been executed (an erroring
task does not stop later tasks), `HandleError` has been called exactly
once per task whose `Apply()` returned a non-nil error — with that same
error — and on no other task, no error was ever returned to the queue's
caller (`Enqueue` and the steps are total and error-free by construction),
and the consumer flag ends inactive. -/
theorem taskQueue_error_isolation (ls : List Label) (s : QState)
    (h : run initState ls = some s)
    (hdone : s.threads = []) (hq : s.tq.queue = []) :
    s.applied = s.enqueued ∧ s.handled = errPairs s.applied ∧
      s.tq.running = false := by
  obtain ⟨hrun, hfifo, hth⟩ := run_inv ls initState s inv_init h
  refine ⟨by rw [hfifo, hq, List.append_nil], ?_, ?_⟩
  · rw [hdone] at hth
    simpa [threadsOk] using hth
  · rw [hdone] at hrun
    cases hb : s.tq.running
    · rfl
    · exact absurd (hrun.mp hb) (by simp)

/-- Claim C8: from any reachable state, (a) a consumer step that observes
an empty queue clears the `running` flag and terminates the goroutine
(no consumer remains), and (b) an `Enqueue` on a queue whose flag is
inactive sets the flag and spawns a fresh consumer goroutine. -/
theorem taskQueue_consumer_lifecycle (ls : List Label) (s : QState)
    (h : run initState ls = some s) :
    (∀ i s2, s.tq.queue = [] → stepConsume s i = some s2 →
       s2.tq.running = false ∧ s2.threads = []) ∧
    (∀ t, s.tq.running = false →
       (stepEnqueue s t).tq.running = true ∧
       (stepEnqueue s t).threads = [TPhase.atTop]) := by
  obtain ⟨hrun, hfifo, hth⟩ := run_inv ls initState s inv_init h
  constructor
  · intro i s2 hq hc
    unfold stepConsume at hc
    rcases threadsOk_shape _ _ _ hth with hnil | hone | ⟨t, happ⟩
    · rw [hnil] at hc
      simp at hc
    · rw [hone] at hc
      match i with
      | 0 =>
        rw [hq] at hc
        simp only [List.getElem?_cons_zero, List.eraseIdx] at hc
        cases hc
        exact ⟨rfl, rfl⟩
      | n + 1 => simp at hc
    · rw [happ] at hc
      match i with
      | 0 => simp at hc
      | n + 1 => simp at hc
  · intro t hr
    have hnil : s.threads = [] := by
      rcases threadsOk_shape _ _ _ hth with h0 | h1 | ⟨u, h1⟩
      · exact h0
      · rw [h1] at hrun
        rw [hrun.mpr (by simp)] at hr
        cases hr
      · rw [h1] at hrun
        rw [hrun.mpr (by simp)] at hr
        cases hr
    constructor
    · simp [stepEnqueue, hr]
    · simp [stepEnqueue, hr, hnil]

/-- Sample task whose `Apply()` succeeds. -/
def taskA : QTask := ⟨none, "wind chimes", "*audio.StableAudioCommand"⟩

/-- Sample task whose `Apply()` returns `error("x")`. -/
def taskB : QTask := ⟨some (GoErr.mk "x"), "rain", "*audio.StableAudioCommand"⟩

/-- Sample task whose `Apply()` succeeds. -/
def taskC : QTask := ⟨none, "thunder", "*audio.StableAudioCommand"⟩

/-- Enqueue A, B, C, then run the consumer to completion of all three
tasks (the consumer is back at the loop top, queue empty). -/
def trace9 : List Label :=
  [Label.enqueue taskA, Label.enqueue taskB, Label.enqueue taskC,
   Label.consume 0, Label.finish 0, Label.consume 0, Label.finish 0,
   Label.consume 0, Label.finish 0]

/-- State after `trace9`: all of A, B, C executed in order, one
`HandleError` event for B with `error("x")`, consumer about to observe
the empty queue. -/
def state9 : QState :=
  ⟨⟨[], true⟩, [TPhase.atTop], [taskA, taskB, taskC],
   [taskA, taskB, taskC], [(taskB, GoErr.mk "x")]⟩

/-- `trace9` followed by the consumer's final check that empties it. -/
def traceEx : List Label := trace9 ++ [Label.consume 0]

/-- Final drained state: consumer gone, flag clear. -/
def finalEx : QState :=
  ⟨⟨[], false⟩, [], [taskA, taskB, taskC],
   [taskA, taskB, taskC], [(taskB, GoErr.mk "x")]⟩

theorem taskQueue_fifo_witness :
    finalEx.enqueued = finalEx.applied ++ finalEx.tq.queue :=
  taskQueue_fifo traceEx finalEx rfl

theorem taskQueue_single_consumer_witness :
    finalEx.threads.length ≤ 1 ∧ countApplying finalEx.threads ≤ 1 :=
  taskQueue_single_consumer traceEx finalEx rfl

theorem taskQueue_error_isolation_witness :
    finalEx.applied = finalEx.enqueued ∧
      finalEx.handled = errPairs finalEx.applied ∧
      finalEx.tq.running = false :=
  taskQueue_error_isolation traceEx finalEx rfl rfl rfl

theorem taskQueue_consumer_lifecycle_witness :
    (finalEx.tq.running = false ∧ finalEx.threads = []) ∧
    ((stepEnqueue finalEx taskA).tq.running = true ∧
      (stepEnqueue finalEx taskA).threads = [TPhase.atTop]) :=
  ⟨(taskQueue_consumer_lifecycle trace9 state9 rfl).1 0 finalEx rfl rfl,
   (taskQueue_consumer_lifecycle traceEx finalEx rfl).2 taskA rfl⟩

/-- Configured responses of the messaging collaborator (`SessionAPI`):
`checkErr` is what `Check()` returns (a local liveness check — in
`ConcreteSession` it only tests the session pointer, no remote call);
the remaining fields are the message/error pairs the remote operations
`ChannelMessage`, `ChannelMessageSend`, `ChannelMessageSendReply`,
`ChannelMessageEdit` and `ChannelMessageDelete` would return. -/
structure SessionAPI where
  checkErr : Option GoErr := none
  fetchedId : String := ""
  fetchErr : Option GoErr := some GoErr.errUnknownMessage
  sendId : String := ""
  sendErr : Option GoErr := none
  sendReplyId : String := ""
  sendReplyErr : Option GoErr := none
  editErr : Option GoErr := none
  deleteErr : Option GoErr := none
deriving DecidableEq, Repr

/-- Remote calls issued against the messaging collaborator (everything
except the local `Check()`). -/
inductive APICall
  | channelMessage (channelID messageID : String)
  | send (channelID content : String)
  | sendReply (channelID content replyToID : String)
  | edit (channelID messageID content : String)
  | delete (channelID messageID : String)
deriving DecidableEq, Repr

/-- The `Message` struct of `internal/discord/message.go` (non-reply
variant): a channel id and a message id, empty while unsent. -/
structure Message where
  API : SessionAPI
  ChannelID : String
  MessageID : String
deriving DecidableEq, Repr

/-- Result of a `Message` operation: the (possibly updated) receiver, the
returned Go error, and the remote calls issued, in order. -/
structure OpResult (μ : Type) where
  msg : μ
  err : Option GoErr
  calls : List APICall
deriving DecidableEq, Repr

/-- `Message.validate`: session check, then non-empty channel id, then
non-empty message id. -/
def Message.validate (m : Message) : Option GoErr :=
  match m.API.checkErr with
  | some _ => some (GoErr.mk "uninitialized session")
  | none =>
    if m.ChannelID = "" then some (GoErr.mk "empty channel ID")
    else if m.MessageID = "" then some (GoErr.mk "empty message ID")
    else none

/-- `Message.exists` (renamed: `exists` is reserved in Lean): session
check, short-circuit on empty channel id, then fetch the message;
`ErrUnknownMessage` maps to `(false, nil)`, other errors are wrapped,
success maps to `(true, nil)`. Returns (found, error, remote calls). -/
def Message.existsCheck (m : Message) : Bool × Option GoErr × List APICall :=
  match m.API.checkErr with
  | some e =>
    (false, some (GoErr.wrap "Message existence check: encountered error" e), [])
  | none =>
    if m.ChannelID = "" then (false, none, [])
    else
      match m.API.fetchErr with
      | some GoErr.errUnknownMessage =>
        (false, none, [APICall.channelMessage m.ChannelID m.MessageID])
      | some e =>
        (false, some (GoErr.wrap "Message existence check: encountered error" e),
         [APICall.channelMessage m.ChannelID m.MessageID])
      | none => (true, none, [APICall.channelMessage m.ChannelID m.MessageID])

/-- `Message.Create` (non-reply variant): precondition checks (session,
channel id set, message id still empty), an existence check, then
`ChannelMessageSend`; on success the remote-assigned id is stored. -/
def Message.Create (m : Message) (messageContent : String) : OpResult Message :=
  match m.API.checkErr with
  | some e =>
    ⟨m, some (GoErr.wrap "Create failed validation: encountered error" e), []⟩
  | none =>
    if m.ChannelID = "" then
      ⟨m, some (GoErr.mk "Create failed validation: unset channel ID"), []⟩
    else if m.MessageID ≠ "" then
      ⟨m, some (GoErr.mk "Create failed validation: message ID is already set"), []⟩
    else
      match m.existsCheck with
      | (_, some e, exCalls) =>
        ⟨m, some (GoErr.wrap "Create existence check: encountered error" e), exCalls⟩
      | (true, none, exCalls) =>
        ⟨m, some (GoErr.mk "Create existence check: message already exists"), exCalls⟩
      | (false, none, exCalls) =>
        match m.API.sendErr with
        | some e =>
          ⟨m, some (GoErr.wrap "Create request: encountered error" e),
           exCalls ++ [APICall.send m.ChannelID messageContent]⟩
        | none =>
          ⟨{ m with MessageID := m.API.sendId }, none,
           exCalls ++ [APICall.send m.ChannelID messageContent]⟩

/-- `Message.Update`: validate, then `ChannelMessageEdit`; errors are
wrapped with operation context. -/
def Message.Update (m : Message) (messageContent : String) : OpResult Message :=
  match m.validate with
  | some e => ⟨m, some (GoErr.wrap "Update validation: encountered error" e), []⟩
  | none =>
    match m.API.editErr with
    | some e =>
      ⟨m, some (GoErr.wrap "Update request: encountered error" e),
       [APICall.edit m.ChannelID m.MessageID messageContent]⟩
    | none => ⟨m, none, [APICall.edit m.ChannelID m.MessageID messageContent]⟩

/-- `Message.Delete`: validate, then `ChannelMessageDelete`; the
`ErrUnknownMessage` sentinel is treated as success and clears the id,
any other error is wrapped with operation context and the id is kept,
success clears the id. -/
def Message.Delete (m : Message) : OpResult Message :=
  match m.validate with
  | some e => ⟨m, some (GoErr.wrap "Delete validation: encountered error" e), []⟩
  | none =>
    match m.API.deleteErr with
    | some GoErr.errUnknownMessage =>
      ⟨{ m with MessageID := "" }, none, [APICall.delete m.ChannelID m.MessageID]⟩
    | some e =>
      ⟨m, some (GoErr.wrap "Delete request: encountered error" e),
       [APICall.delete m.ChannelID m.MessageID]⟩
    | none =>
      ⟨{ m with MessageID := "" }, none, [APICall.delete m.ChannelID m.MessageID]⟩

/-- The reply-variant `Message` struct (the revision of `message.go`
carrying a `RepliedToMessageID`, `src/unnamed/part_005`). -/
structure ReplyMessage where
  API : SessionAPI
  ChannelID : String
  MessageID : String
  RepliedToMessageID : String
deriving DecidableEq, Repr

/-- `validate` of the reply variant (identical to the non-reply one). -/
def ReplyMessage.validate (m : ReplyMessage) : Option GoErr :=
  match m.API.checkErr with
  | some _ => some (GoErr.mk "uninitialized session")
  | none =>
    if m.ChannelID = "" then some (GoErr.mk "empty channel ID")
    else if m.MessageID = "" then some (GoErr.mk "empty message ID")
    else none

/-- `Create` of the reply variant: precondition checks (session, channel
id set, message id still empty, reply-target id set), then
`ChannelMessageSendReply`; on success the remote-assigned id is stored. -/
def ReplyMessage.Create (m : ReplyMessage) (messageContent : String) :
    OpResult ReplyMessage :=
  match m.API.checkErr with
  | some e =>
    ⟨m, some (GoErr.wrap "Create failed validation: encountered error" e), []⟩
  | none =>
    if m.ChannelID = "" then
      ⟨m, some (GoErr.mk "Create failed validation: unset channel ID"), []⟩
    else if m.MessageID ≠ "" then
      ⟨m, some (GoErr.mk "Create failed validation: message ID is already set"), []⟩
    else if m.RepliedToMessageID = "" then
      ⟨m, some (GoErr.mk "Create failed validation: ID of message to reply to is unset"), []⟩
    else
      match m.API.sendReplyErr with
      | some e =>
        ⟨m, some (GoErr.wrap "Create request: encountered error" e),
         [APICall.sendReply m.ChannelID messageContent m.RepliedToMessageID]⟩
      | none =>
        ⟨{ m with MessageID := m.API.sendReplyId }, none,
         [APICall.sendReply m.ChannelID messageContent m.RepliedToMessageID]⟩

/-- `Update` of the reply variant (identical to the non-reply one). -/
def ReplyMessage.Update (m : ReplyMessage) (messageContent : String) :
    OpResult ReplyMessage :=
  match m.validate with
  | some e => ⟨m, some (GoErr.wrap "Update validation: encountered error" e), []⟩
  | none =>
    match m.API.editErr with
    | some e =>
      ⟨m, some (GoErr.wrap "Update request: encountered error" e),
       [APICall.edit m.ChannelID m.MessageID messageContent]⟩
    | none => ⟨m, none, [APICall.edit m.ChannelID m.MessageID messageContent]⟩

/-- `Delete` of the reply variant (identical to the non-reply one). -/
def ReplyMessage.Delete (m : ReplyMessage) : OpResult ReplyMessage :=
  match m.validate with
  | some e => ⟨m, some (GoErr.wrap "Delete validation: encountered error" e), []⟩
  | none =>
    match m.API.deleteErr with
    | some GoErr.errUnknownMessage =>
      ⟨{ m with MessageID := "" }, none, [APICall.delete m.ChannelID m.MessageID]⟩
    | some e =>
      ⟨m, some (GoErr.wrap "Delete request: encountered error" e),
       [APICall.delete m.ChannelID m.MessageID]⟩
    | none =>
      ⟨{ m with MessageID := "" }, none, [APICall.delete m.ChannelID m.MessageID]⟩

/-- A Sent message whose remote delete reports the not-found sentinel. -/
def msgNF : Message := ⟨{ deleteErr := some GoErr.errUnknownMessage }, "c1", "m1"⟩

/-- A Sent message whose remote delete fails with `error("boom")`. -/
def msgBoom : Message := ⟨{ deleteErr := some (GoErr.mk "boom") }, "c1", "m1"⟩

/-- Claim C4, counterexample: on a Sent message whose remote delete fails
with `error("boom")`, `Delete()` does not return that error unchanged —
it returns the error wrapped with operation context
(`fmt.Errorf("Delete request: encountered error: %w", err)` in the
source); the id does stay set. -/
theorem message_delete_counterexample :
    msgBoom.Delete.err ≠ some (GoErr.mk "boom") ∧
    msgBoom.Delete.err =
      some (GoErr.wrap "Delete request: encountered error" (GoErr.mk "boom")) ∧
    msgBoom.Delete.msg.MessageID = "m1" :=
  ⟨by decide, rfl, rfl⟩

/-- Claim C4, amended: for every Message in the Sent state (message id
set, with a valid session and channel id so the remote call is reached),
`Delete()` when the remote reports not-found returns success (nil) and
clears the message id (state returns to Unsent); for any other remote
delete error, `Delete()` returns that error wrapped with operation
context and the message id stays set (state remains Sent). -/
theorem message_delete_remote_semantics (m : Message)
    (hc : m.API.checkErr = none) (hch : m.ChannelID ≠ "")
    (hm : m.MessageID ≠ "") :
    (m.API.deleteErr = some GoErr.errUnknownMessage →
       m.Delete.err = none ∧ m.Delete.msg.MessageID = "") ∧
    (∀ e, m.API.deleteErr = some e → e ≠ GoErr.errUnknownMessage →
       m.Delete.err = some (GoErr.wrap "Delete request: encountered error" e) ∧
       m.Delete.msg.MessageID = m.MessageID) := by
  have hval : m.validate = none := by
    simp [Message.validate, hc, hch, hm]
  constructor
  · intro h
    simp [Message.Delete, hval, h]
  · intro e he hne
    cases e with
    | errUnknownMessage => exact absurd rfl hne
    | mk s => simp [Message.Delete, hval, he]
    | wrap c inner => simp [Message.Delete, hval, he]

theorem message_delete_remote_semantics_witness :
    (msgNF.Delete.err = none ∧ msgNF.Delete.msg.MessageID = "") ∧
    (msgBoom.Delete.err =
       some (GoErr.wrap "Delete request: encountered error" (GoErr.mk "boom")) ∧
     msgBoom.Delete.msg.MessageID = msgBoom.MessageID) :=
  ⟨(message_delete_remote_semantics msgNF rfl (by decide) (by decide)).1 rfl,
   (message_delete_remote_semantics msgBoom rfl (by decide) (by decide)).2
     (GoErr.mk "boom") rfl (by decide)⟩

/-- Claim C9: both `Create` variants return an error and issue no remote
call whenever a precondition fails — the collaborator is unreachable
(`Check()` fails), the channel id is empty, the message id is already
set, or (reply variant) the reply-target id is empty. -/
theorem message_create_precondition :
    (∀ (m : Message) (text : String),
       (m.API.checkErr ≠ none ∨ m.ChannelID = "" ∨ m.MessageID ≠ "") →
       (m.Create text).err ≠ none ∧ (m.Create text).calls = []) ∧
    (∀ (m : ReplyMessage) (text : String),
       (m.API.checkErr ≠ none ∨ m.ChannelID = "" ∨ m.MessageID ≠ "" ∨
         m.RepliedToMessageID = "") →
       (m.Create text).err ≠ none ∧ (m.Create text).calls = []) := by
  constructor
  · intro m text hpre
    rcases hpre with hc | hch | hm
    · cases hco : m.API.checkErr with
      | none => exact absurd hco hc
      | some e => simp [Message.Create, hco]
    · cases hco : m.API.checkErr with
      | some e => simp [Message.Create, hco]
      | none => simp [Message.Create, hco, hch]
    · cases hco : m.API.checkErr with
      | some e => simp [Message.Create, hco]
      | none =>
        by_cases hch : m.ChannelID = ""
        · simp [Message.Create, hco, hch]
        · simp [Message.Create, hco, hch, hm]
  · intro m text hpre
    rcases hpre with hc | hch | hm | hrt
    · cases hco : m.API.checkErr with
      | none => exact absurd hco hc
      | some e => simp [ReplyMessage.Create, hco]
    · cases hco : m.API.checkErr with
      | some e => simp [ReplyMessage.Create, hco]
      | none => simp [ReplyMessage.Create, hco, hch]
    · cases hco : m.API.checkErr with
      | some e => simp [ReplyMessage.Create, hco]
      | none =>
        by_cases hch : m.ChannelID = ""
        · simp [ReplyMessage.Create, hco, hch]
        · simp [ReplyMessage.Create, hco, hch, hm]
    · cases hco : m.API.checkErr with
      | some e => simp [ReplyMessage.Create, hco]
      | none =>
        by_cases hch : m.ChannelID = ""
        · simp [ReplyMessage.Create, hco, hch]
        · by_cases hm : m.MessageID = ""
          · simp [ReplyMessage.Create, hco, hch, hm, hrt]
          · simp [ReplyMessage.Create, hco, hch, hm]

/-- An unsent message with an empty channel id. -/
def msgNoChan : Message := ⟨{}, "", ""⟩

/-- An unsent reply message with an empty reply-target id. -/
def replyNoTarget : ReplyMessage := ⟨{}, "c1", "", ""⟩

theorem message_create_precondition_witness :
    ((msgNoChan.Create "hi").err ≠ none ∧ (msgNoChan.Create "hi").calls = []) ∧
    ((replyNoTarget.Create "hi").err ≠ none ∧
      (replyNoTarget.Create "hi").calls = []) :=
  ⟨message_create_precondition.1 msgNoChan "hi" (Or.inr (Or.inl rfl)),
   message_create_precondition.2 replyNoTarget "hi"
     (Or.inr (Or.inr (Or.inr rfl)))⟩

/-- `strings.TrimSpace`: drop leading and trailing whitespace characters
(modelled over the character list so that it evaluates by `rfl`). -/
def trimSpace (s : String) : String :=
  String.mk
    (((s.data.dropWhile Char.isWhitespace).reverse.dropWhile
        Char.isWhitespace).reverse)

/-- The `PollableFile` struct (`NewPollableFile` guarantees a non-nil
callback and a fresh unique file): the backing file path and the polling
interval. The callback's invocations are returned by `Start` below
instead of being performed as side effects. -/
structure PollableFile where
  File : String
  Interval : Nat
deriving DecidableEq, Repr

/-- `PollableFile.Start`: the polling loop, driven by the sequence of
`os.ReadFile` outcomes observed at each ticker tick until the `done`
channel closes (one list entry per tick; `none` is a read error).
Each tick: on read error, continue; otherwise trim the content
(`strings.TrimSpace`) and, if non-empty, invoke `OnUpdate` with it.
Returns the list of callback invocations in order. -/
def PollableFile.Start (pf : PollableFile) : List (Option String) → List String
  | [] => []
  | read :: rest =>
    match read with
    | none => pf.Start rest
    | some data =>
      let text := trimSpace data
      if text ≠ "" then text :: pf.Start rest
      else pf.Start rest

/-- Claim C5: on each tick the callback is invoked exactly when the
file's whitespace-trimmed content is non-empty, with that trimmed
content, every such tick (independently of previous ticks, so repeated
identical content re-invokes it); a file that always reads empty (never
written) yields zero invocations; a failed read is swallowed and the
loop continues with the next tick. -/
theorem pollableFile_start_ticks (pf : PollableFile) :
    (∀ reads, pf.Start reads = reads.filterMap
       (fun r => r.bind (fun d => if trimSpace d = "" then none else some (trimSpace d)))) ∧
    (∀ n, pf.Start (List.replicate n (some "")) = []) ∧
    (∀ rest, pf.Start (none :: rest) = pf.Start rest) := by
  have hmain : ∀ reads, pf.Start reads = reads.filterMap
      (fun r => r.bind (fun d => if trimSpace d = "" then none else some (trimSpace d))) := by
    intro reads
    induction reads with
    | nil => rfl
    | cons r rest ih =>
      cases r with
      | none => simp [PollableFile.Start, ih]
      | some data =>
        by_cases hd : trimSpace data = ""
        · simp [PollableFile.Start, hd, ih]
        · simp [PollableFile.Start, hd, ih]
  refine ⟨hmain, ?_, ?_⟩
  · intro n
    induction n with
    | zero => rfl
    | succ k ih =>
      have htrim : trimSpace "" = "" := rfl
      rw [List.replicate_succ]
      simp only [PollableFile.Start, htrim, ne_eq, not_true_eq_false, if_false]
      exact ih
  · intro rest
    rfl

/-- `MAX_JOBS_IN_VIEW` from `task_queue_view.go`. -/
def MAX_JOBS_IN_VIEW : Nat := 5

instance {ε α : Type} [DecidableEq ε] [DecidableEq α] :
    DecidableEq (Except ε α) := fun
  | Except.error a, Except.error b =>
    if h : a = b then isTrue (congrArg Except.error h)
    else isFalse (fun hh => h (Except.error.inj hh))
  | Except.ok a, Except.ok b =>
    if h : a = b then isTrue (congrArg Except.ok h)
    else isFalse (fun hh => h (Except.ok.inj hh))
  | Except.error _, Except.ok _ => isFalse (fun hh => Except.noConfusion hh)
  | Except.ok _, Except.error _ => isFalse (fun hh => Except.noConfusion hh)

/-- Configured responses of the `discordgo.Session` operations the view
uses: `recentResult` is what `ChannelMessages(channelID, 1, ...)` returns
(the ids of the most recent messages, newest first), `editErr`, `sendId`
and `sendErr` the outcomes of edit and send. -/
structure ViewSession where
  recentResult : Except GoErr (List String) := Except.ok []
  editErr : Option GoErr := none
  sendId : String := ""
  sendErr : Option GoErr := none
deriving DecidableEq, Repr

/-- Session calls issued by one `Refresh()`. -/
inductive ViewCall
  | channelMessages (channelID : String) (limit : Nat)
  | edit (channelID messageID body : String)
  | delete (channelID messageID : String)
  | send (channelID body : String)
deriving DecidableEq, Repr

/-- The `TaskQueueView` struct: the queue it renders (its list snapshot
is taken under the queue's mutex), the session, the channel, and the id
of the currently tracked status message (empty = none). -/
structure TaskQueueView where
  Queue : TaskQueue
  Session : ViewSession
  ChannelID : String
  MessageID : String
deriving DecidableEq, Repr

/-- The numbered lines built by `renderBody`'s loop: one line
`"<i+1>) <%T of task i>"` for each of the first
`min(numJobs, MAX_JOBS_IN_VIEW)` queued tasks, followed by an
`"...and <K> more..."` line when more than `MAX_JOBS_IN_VIEW` are
queued. -/
def TaskQueueView.renderLines (v : TaskQueueView) : List String :=
  let numJobs := v.Queue.queue.length
  let numJobsToDisplay := min numJobs MAX_JOBS_IN_VIEW
  let lines := (v.Queue.queue.take numJobsToDisplay).enum.map
    (fun p => toString (p.1 + 1) ++ ") " ++ p.2.typeName)
  if numJobs > MAX_JOBS_IN_VIEW then
    lines ++ ["...and " ++ toString (numJobs - MAX_JOBS_IN_VIEW) ++ " more..."]
  else lines

/-- `TaskQueueView.renderBody`: empty string for an empty queue,
otherwise the lines joined with newlines. -/
def TaskQueueView.renderBody (v : TaskQueueView) : String :=
  if v.Queue.queue.length < 1 then ""
  else String.intercalate "\n" v.renderLines

/-- Result of one `Refresh()`: the updated view, the returned error, and
the session calls issued in order. -/
structure RefreshResult where
  view : TaskQueueView
  err : Option GoErr
  calls : List ViewCall
deriving DecidableEq, Repr

/-- `TaskQueueView.Refresh`: if the rendered body is empty, delete the
tracked message (when one exists) and clear the tracked id; otherwise
fetch the most recent channel message, edit in place when it is still
the tracked one, and otherwise delete the old tracked message (if any)
and send the body as a new message, recording its id. -/
def TaskQueueView.Refresh (v : TaskQueueView) : RefreshResult :=
  let body := v.renderBody
  if body = "" then
    if v.MessageID ≠ "" then
      ⟨{ v with MessageID := "" }, none, [ViewCall.delete v.ChannelID v.MessageID]⟩
    else ⟨v, none, []⟩
  else
    match v.Session.recentResult with
    | Except.error e =>
      ⟨v, some (GoErr.wrap "failed to fetch messages" e),
       [ViewCall.channelMessages v.ChannelID 1]⟩
    | Except.ok msgs =>
      if msgs.head? = some v.MessageID then
        ⟨v, v.Session.editErr,
         [ViewCall.channelMessages v.ChannelID 1,
          ViewCall.edit v.ChannelID v.MessageID body]⟩
      else
        let delCalls := if v.MessageID ≠ ""
          then [ViewCall.delete v.ChannelID v.MessageID] else []
        match v.Session.sendErr with
        | some e =>
          ⟨v, some (GoErr.wrap "failed to send new queue view message" e),
           [ViewCall.channelMessages v.ChannelID 1] ++ delCalls ++
             [ViewCall.send v.ChannelID body]⟩
        | none =>
          ⟨{ v with MessageID := v.Session.sendId }, none,
           [ViewCall.channelMessages v.ChannelID 1] ++ delCalls ++
             [ViewCall.send v.ChannelID body]⟩

/-- Is `needle` a prefix of `hay`? (over character lists). -/
def isPrefixChars : List Char → List Char → Bool
  | [], _ => true
  | _ :: _, [] => false
  | a :: as, b :: bs => a == b && isPrefixChars as bs

/-- Does `hay` contain `needle` as a contiguous substring? -/
def containsChars : List Char → List Char → Bool
  | [], needle => needle.isEmpty
  | c :: t, needle => isPrefixChars needle (c :: t) || containsChars t needle

/-- String-level substring containment test. -/
def containsStr (hay needle : String) : Bool :=
  containsChars hay.data needle.data

/-- A queued task whose prompt differs from its Go type name. -/
def taskP : QTask := ⟨none, "techno beat", "*audio.StableAudioCommand"⟩

/-- A view over a queue holding just `taskP`. -/
def viewC6 : TaskQueueView := ⟨⟨[taskP], true⟩, {}, "c1", ""⟩

/-- Claim C6, counterexample: the rendered body does not contain prompt
summaries — the loop formats `"%d) %T"`, i.e. the task's Go type name,
never calling `Prompt()`, and applies no truncation/padding to a display
width. At a queue holding one task whose prompt is "techno beat", the
body is exactly `"1) *audio.StableAudioCommand"` and contains no
occurrence of the prompt. -/
theorem queueView_render_counterexample :
    viewC6.renderBody = "1) *audio.StableAudioCommand" ∧
    containsStr viewC6.renderBody taskP.prompt = false :=
  ⟨rfl, by decide⟩

/-- Claim C6, amended: for every view over a non-empty queue, the
rendered lines consist of one entry per queued task up to the fixed
maximum of 5 — each entry showing its 1-based position and the task's Go
type name (`%T`), not a prompt summary and with no fixed-width
truncation/padding — and when more than 5 tasks are queued exactly one
extra final line `"...and K more..."` with K the number of queued tasks
beyond 5; the body is the newline join of these lines. -/
theorem queueView_render_amended (v : TaskQueueView)
    (h : v.Queue.queue ≠ []) :
    v.renderLines.length =
      min v.Queue.queue.length MAX_JOBS_IN_VIEW +
        (if v.Queue.queue.length > MAX_JOBS_IN_VIEW then 1 else 0) ∧
    (v.Queue.queue.length > MAX_JOBS_IN_VIEW →
      v.renderLines.getLast? = some ("...and " ++
        toString (v.Queue.queue.length - MAX_JOBS_IN_VIEW) ++ " more...")) ∧
    v.renderBody = String.intercalate "\n" v.renderLines := by
  have hp : ¬ v.Queue.queue.length < 1 := by
    have := List.length_pos.mpr h
    omega
  refine ⟨?_, ?_, ?_⟩
  · by_cases hgt : v.Queue.queue.length > MAX_JOBS_IN_VIEW
    · simp [TaskQueueView.renderLines, hgt, List.length_take]
    · simp [TaskQueueView.renderLines, hgt, List.length_take]
  · intro hgt
    simp [TaskQueueView.renderLines, hgt, List.getLast?_concat]
  · simp [TaskQueueView.renderBody, hp]

/-- A view over a queue of 7 tasks. -/
def viewC6b : TaskQueueView :=
  ⟨⟨[taskP, taskP, taskP, taskP, taskP, taskP, taskP], true⟩, {}, "c1", ""⟩

theorem queueView_render_amended_witness :
    viewC6b.renderLines.length =
      min viewC6b.Queue.queue.length MAX_JOBS_IN_VIEW +
        (if viewC6b.Queue.queue.length > MAX_JOBS_IN_VIEW then 1 else 0) ∧
    viewC6b.renderLines.getLast? = some ("...and " ++
      toString (viewC6b.Queue.queue.length - MAX_JOBS_IN_VIEW) ++ " more...") ∧
    viewC6b.renderBody = String.intercalate "\n" viewC6b.renderLines := by
  have hview := queueView_render_amended viewC6b (by decide)
  exact ⟨hview.1, hview.2.1 (by decide), hview.2.2⟩

/-- Claim C7: when the queue is empty at `Refresh()`, an existing tracked
status message is deleted and the tracked id cleared (and nothing is
sent); when no message is tracked, nothing happens at all; and in every
case, any message `Refresh()` sends carries a non-empty body — an empty
placeholder is never sent. -/
theorem queueView_refresh_reconcile (v : TaskQueueView) :
    (v.Queue.queue = [] → v.MessageID ≠ "" →
       v.Refresh.view.MessageID = "" ∧ v.Refresh.err = none ∧
       v.Refresh.calls = [ViewCall.delete v.ChannelID v.MessageID]) ∧
    (v.Queue.queue = [] → v.MessageID = "" → v.Refresh = ⟨v, none, []⟩) ∧
    (∀ c b, ViewCall.send c b ∈ v.Refresh.calls → b ≠ "") := by
  have hbody : v.Queue.queue = [] → v.renderBody = "" := by
    intro hq
    simp [TaskQueueView.renderBody, hq]
  refine ⟨?_, ?_, ?_⟩
  · intro hq hm
    simp [TaskQueueView.Refresh, hbody hq, hm]
  · intro hq hm
    simp [TaskQueueView.Refresh, hbody hq, hm]
  · intro c b hmem
    by_cases hb : v.renderBody = ""
    · by_cases hm : v.MessageID = "" <;>
        simp [TaskQueueView.Refresh, hb, hm] at hmem
    · cases hrec : v.Session.recentResult with
      | error e =>
        simp [TaskQueueView.Refresh, hb, hrec] at hmem
      | ok msgs =>
        by_cases hcur : msgs.head? = some v.MessageID
        · simp [TaskQueueView.Refresh, hb, hrec, hcur] at hmem
        · by_cases hm : v.MessageID = ""
          · rw [hm] at hcur
            cases hsend : v.Session.sendErr with
            | some e =>
              simp [TaskQueueView.Refresh, hb, hrec, hcur, hsend, hm] at hmem
              exact fun hbe => hb (hmem.2.symm.trans hbe)
            | none =>
              simp [TaskQueueView.Refresh, hb, hrec, hcur, hsend, hm] at hmem
              exact fun hbe => hb (hmem.2.symm.trans hbe)
          · cases hsend : v.Session.sendErr with
            | some e =>
              simp [TaskQueueView.Refresh, hb, hrec, hcur, hsend, hm] at hmem
              exact fun hbe => hb (hmem.2.symm.trans hbe)
            | none =>
              simp [TaskQueueView.Refresh, hb, hrec, hcur, hsend, hm] at hmem
              exact fun hbe => hb (hmem.2.symm.trans hbe)

/-- A view tracking message "m9" over an empty queue. -/
def viewEmpty : TaskQueueView := ⟨⟨[], false⟩, {}, "c1", "m9"⟩

/-- A view with no tracked message over a non-empty queue. -/
def viewNonEmpty : TaskQueueView := ⟨⟨[taskP], true⟩, {}, "c1", ""⟩

theorem queueView_refresh_reconcile_witness :
    (viewEmpty.Refresh.view.MessageID = "" ∧ viewEmpty.Refresh.err = none ∧
      viewEmpty.Refresh.calls = [ViewCall.delete "c1" "m9"]) ∧
    ("1) *audio.StableAudioCommand" : String) ≠ "" :=
  ⟨(queueView_refresh_reconcile viewEmpty).1 rfl (by decide),
   (queueView_refresh_reconcile viewNonEmpty).2.2 "c1"
     "1) *audio.StableAudioCommand" (by decide)⟩

/-- Go panic values: closing an already-closed channel panics at runtime. -/
inductive GoPanic
  | closeOfClosedChannel
deriving DecidableEq, Repr

/-- The `FilePollMessage` struct (`ProgressReportingSession`): the reply
message it manages, whether the one-shot `done` channel has been closed,
and the backing file path of its `PollableFile`. -/
structure FilePollMessage where
  Message : ReplyMessage
  doneClosed : Bool
  FilePath : String
deriving DecidableEq, Repr

/-- `FilePollMessage.Start`: `Message.Create(initialText)`, and on
success the polling goroutine is launched (its invocations are modelled
by `PollableFile.Start` above). -/
def FilePollMessage.Start (fpm : FilePollMessage) (initialText : String) :
    FilePollMessage × Option GoErr :=
  let r := fpm.Message.Create initialText
  match r.err with
  | some e => (fpm, some e)
  | none => ({ fpm with Message := r.msg }, none)

/-- `FilePollMessage.Stop`: `close(fpm.done)` — which panics if the
channel is already closed (Go runtime semantics of `close`) — then
`Message.Delete()` synchronously, returning its error. -/
def FilePollMessage.Stop (fpm : FilePollMessage) :
    Except GoPanic (FilePollMessage × Option GoErr) :=
  if fpm.doneClosed then Except.error GoPanic.closeOfClosedChannel
  else
    let fpm2 : FilePollMessage := { fpm with doneClosed := true }
    let r := fpm2.Message.Delete
    Except.ok ({ fpm2 with Message := r.msg }, r.err)

/-- Claim C10: `Stop()` is not idempotent — any `Stop()` call that
returns (rather than panicking) leaves the `done` channel closed, so a
second `Stop()` on the resulting session panics by closing the one-shot
channel again. This is exactly the double close a caller triggers by
calling `Stop()` on an error path while also having deferred `Stop()`
(as `StableAudioWithConfigCommand.Apply` does). -/
theorem filePollMessage_stop_not_idempotent
    (fpm fpm2 : FilePollMessage) (e : Option GoErr)
    (h : fpm.Stop = Except.ok (fpm2, e)) :
    fpm2.Stop = Except.error GoPanic.closeOfClosedChannel := by
  unfold FilePollMessage.Stop at h
  by_cases hc : fpm.doneClosed
  · simp [hc] at h
  · simp only [hc, if_false, Bool.false_eq_true, Except.ok.injEq,
      Prod.mk.injEq] at h
    obtain ⟨h1, h2⟩ := h
    simp [FilePollMessage.Stop, ← h1]

/-- A live session over message "m1" in channel "c1". -/
def fpmEx : FilePollMessage := ⟨⟨{}, "c1", "m1", "r1"⟩, false, "/tmp/pollable-1.progress"⟩

/-- `fpmEx` after its first `Stop()`: message deleted, channel closed. -/
def fpmStopped : FilePollMessage := ⟨⟨{}, "c1", "", "r1"⟩, true, "/tmp/pollable-1.progress"⟩

theorem filePollMessage_stop_not_idempotent_witness :
    fpmStopped.Stop = Except.error GoPanic.closeOfClosedChannel :=
  filePollMessage_stop_not_idempotent fpmEx fpmStopped none rfl
